import Mathlib

/-!
Verification of the request templating and execution engine of kapit
(`src/lib/exec.js`): the template compiler, the step dispatcher, the HTTP
step runner and the OAuth authorization flow, embedded shallowly in Lean.

The JavaScript values flowing through the engine are embedded as the
inductive `Value`; the mutable `step.response` record is embedded as the
`RespRec` structure, with `Option` fields for JavaScript fields that may
be absent (`undefined`); the external HTTP transport (the `request`
library) and the external browser automation driver (selenium-webdriver)
are embedded through small input oracles (`HttpInput`, `SessionBehavior`)
describing the outcome of the single external interaction each runner
performs.
-/

namespace Kapit

/-- A JSON-like value, the shape of request descriptions handled by
`compile` in `src/lib/exec.js` (lodash distinguishes arrays, plain
objects, strings and other scalars, which is the case split the source
performs). -/
inductive Value where
  | str (s : String)
  | num (n : Int)
  | bool (b : Bool)
  | null
  | arr (elems : List Value)
  | obj (fields : List (String × Value))

/-- The template context, `data.context()` in the source: a mapping from
variable names to values.  The claims under study only exercise string
values, so the context is embedded as a string-to-string association
list. -/
abbrev Ctx := List (String × String)

/-- First-match lookup in the context mapping. -/
def ctxLookup (ctx : Ctx) (k : String) : Option String :=
  match ctx with
  | [] => none
  | (k', v) :: t => if k' = k then some v else ctxLookup t k

/-- HTML-escaping of one character, as handlebars `escapeExpression`
performs when escaping is enabled. -/
def escapeChar (c : Char) : List Char :=
  if c = '&' then "&amp;".data
  else if c = '<' then "&lt;".data
  else if c = '>' then "&gt;".data
  else if c = '"' then "&quot;".data
  else if c = '\x27' then "&#x27;".data
  else [c]

/-- HTML-escaping of a string (handlebars `escapeExpression`). -/
def htmlEscape (s : String) : String :=
  String.mk (s.data.map escapeChar).flatten

/-- Drop leading and trailing spaces from a character list (handlebars
tolerates whitespace around a variable name inside a mustache). -/
def trimChars (l : List Char) : List Char :=
  ((l.dropWhile (fun c => c = ' ')).reverse.dropWhile (fun c => c = ' ')).reverse

/-- Scan for the closing `\x7d\x7d` of a mustache expression: returns the
characters before it (the variable name) and the characters after it,
or `none` when the expression is never closed. -/
def splitClose : List Char → Option (List Char × List Char)
  | [] => none
  | '\x7d' :: '\x7d' :: rest => some ([], rest)
  | c :: rest =>
    match splitClose rest with
    | some (n, r) => some (c :: n, r)
    | none => none

/-- Does the character list begin with the `\x7b\x7b` marker that opens a
mustache expression? -/
def isMarkerStart : List Char → Bool
  | a :: b :: _ => a = '\x7b' && b = '\x7b'
  | _ => false

/-- Does the character list contain a `\x7b\x7b` template marker
anywhere? -/
def hasMarkerL : List Char → Bool
  | [] => false
  | c :: cs => isMarkerStart (c :: cs) || hasMarkerL cs

/-- Double-mustache template rendering over a character list, modelling
handlebars variable interpolation as used by `compile` in the source:
`\x7b\x7bname\x7d\x7d` is replaced by the context value of `name`
(a missing variable renders as the empty string, the standard handlebars
policy for undefined simple variables); when `noEscape` is false the
substituted value is HTML-escaped, when true it is inserted verbatim.
The fuel argument only bounds the recursion: every step consumes at
least one input character, so fuel equal to the input length always
suffices, and running out of fuel returns the remaining input
unchanged. -/
def renderAux (noEscape : Bool) (ctx : Ctx) : Nat → List Char → List Char
  | _, [] => []
  | 0, l => l
  | fuel + 1, c :: cs =>
    if isMarkerStart (c :: cs) then
      match splitClose (cs.drop 1) with
      | some (name, rest') =>
        let v := (ctxLookup ctx (String.mk (trimChars name))).getD ""
        (if noEscape then v.data else (htmlEscape v).data) ++
          renderAux noEscape ctx fuel rest'
      | none => c :: cs
    else
      c :: renderAux noEscape ctx fuel cs

/-- `handlebars.compile(tmpl, opts)(ctx)`: render a template string
against the context, with `noEscape` taken from the compile options. -/
def hbCompile (noEscape : Bool) (tmpl : String) (ctx : Ctx) : String :=
  String.mk (renderAux noEscape ctx tmpl.data.length tmpl.data)

mutual

/-- The template compiler of `src/lib/exec.js` (`compile`): traverse the
value; arrays are mapped elementwise (`_.map`), plain objects valuewise
with keys unchanged (`_.mapValues`), strings are run through handlebars
with `noEscape: true`, and any other scalar is returned unchanged. -/
def compile (ctx : Ctx) : Value → Value
  | .arr l => .arr (compileList ctx l)
  | .obj kvs => .obj (compileFields ctx kvs)
  | .str s => .str (hbCompile true s ctx)
  | .num n => .num n
  | .bool b => .bool b
  | .null => .null

/-- Elementwise compilation of an array (the `_.map(obj, loop)` branch). -/
def compileList (ctx : Ctx) : List Value → List Value
  | [] => []
  | v :: t => compile ctx v :: compileList ctx t

/-- Valuewise compilation of an object (the `_.mapValues(obj, loop)`
branch): every key is kept, every value is compiled. -/
def compileFields (ctx : Ctx) : List (String × Value) → List (String × Value)
  | [] => []
  | (k, v) :: t => (k, compile ctx v) :: compileFields ctx t

end

mutual

/-- Does the value contain no remaining `\x7b\x7b` template marker in any
of its string leaves? -/
def noMarkers : Value → Bool
  | .str s => !hasMarkerL s.data
  | .arr l => noMarkersList l
  | .obj kvs => noMarkersFields kvs
  | .num _ => true
  | .bool _ => true
  | .null => true

/-- `noMarkers` over the elements of an array. -/
def noMarkersList : List Value → Bool
  | [] => true
  | v :: t => noMarkers v && noMarkersList t

/-- `noMarkers` over the values of an object. -/
def noMarkersFields : List (String × Value) → Bool
  | [] => true
  | (_, v) :: t => noMarkers v && noMarkersFields t

end

mutual

/-- Structural correspondence between an input value and its compiled
output: string leaves may change arbitrarily, every other scalar leaf
must be identical, arrays must have the same length with corresponding
elements related, and objects must have exactly the same keys in the
same order with corresponding values related. -/
def SameShape : Value → Value → Prop
  | .str _, .str _ => True
  | .num n, .num m => n = m
  | .bool a, .bool c => a = c
  | .null, .null => True
  | .arr l, .arr l' => SameShapeList l l'
  | .obj kvs, .obj kvs' => SameShapeFields kvs kvs'
  | _, _ => False

/-- `SameShape`, elementwise over arrays (forcing equal length and
order). -/
def SameShapeList : List Value → List Value → Prop
  | [], [] => True
  | v :: t, v' :: t' => SameShape v v' ∧ SameShapeList t t'
  | _, _ => False

/-- `SameShape`, fieldwise over objects (forcing identical key lists). -/
def SameShapeFields : List (String × Value) → List (String × Value) → Prop
  | [], [] => True
  | (k, v) :: t, (k', v') :: t' => k = k' ∧ SameShape v v' ∧ SameShapeFields t t'
  | _, _ => False

end

/-- The `step.response` record: every field of the JavaScript object may
be absent (`undefined`), hence the `Option` types.  The engine only ever
assigns the boolean `true` to `error`; the embedding still allows
`some false` so that frame properties are statable. -/
structure RespRec where
  status : Option Nat
  completed : Option Bool
  error : Option Bool
  headers : Option (List (String × String))
  body : Option String
  code : Option String
deriving DecidableEq

/-- A response record with every field absent, the state of a freshly
reset `step.response`. -/
def RespRec.empty : RespRec := ⟨none, none, none, none, none, none⟩

/-- JavaScript errors relevant to the engine: the `TypeError` raised by
reading a property of `undefined`, and the selenium wait timeout
error. -/
inductive JsError where
  | typeError
  | timeout
deriving DecidableEq

/-- The outcome of one execution attempt as observed by the caller of
the engine:
the promise resolved with a response record; the promise was rejected
(`promise.reject`) with a message; the promise never settles because an
error escaped its executor asynchronously (the executor of the source
only ever receives `resolve`, so such an error leaves the promise
forever pending); or the function threw synchronously before any promise
was created. -/
inductive ExecOutcome where
  | resolved (r : RespRec)
  | rejected (msg : String)
  | unsettled (e : JsError)
  | threw (e : JsError)
deriving DecidableEq

/-- The two ways the single transport interaction of the HTTP runner can
end, per the contract of the `request` library: the callback is invoked
either with an error and no response object (pure transport failure) or
with a response object carrying a status code, headers and body (and a
null error). -/
inductive HttpInput where
  | transportFailure
  | received (statusCode : Nat) (headers : List (String × String)) (body : String)
deriving DecidableEq

/-- The HTTP step runner (`exports.http`), as a transformation of the
prior `step.response` record given the transport outcome.  The source
callback runs, in order:
`step.response.status = response.statusCode` (which throws a `TypeError`
when the transport failed, because `response` is `undefined`, so nothing
at all is written in that case and the thrown error leaves the promise
unsettled), then `step.response.completed = true`, then
`if (error || response.statusCode !== 200) step.response.error = true`
(in the received case `error` is null, so only the status test matters,
and on status 200 the `error` field keeps its prior value), then
`step.response.headers = response.headers` and
`step.response.body = body`, then `resolve(step.response)`. -/
def http (prior : RespRec) : HttpInput → Except JsError RespRec
  | .transportFailure => .error .typeError
  | .received s h b =>
    .ok { prior with
          status := some s
          completed := some true
          error := if s ≠ 200 then some true else prior.error
          headers := some h
          body := some b }

/-- First-match lookup among object fields. -/
def lookupField (kvs : List (String × Value)) (k : String) : Option Value :=
  match kvs with
  | [] => none
  | (k', v) :: t => if k' = k then some v else lookupField t k

/-- JavaScript property read `v.k` on a value: reading a property of
`null` throws a `TypeError`; reading a property of an object yields the
field value or `undefined`; reading a property of any other primitive
yields `undefined`. -/
def jsGet : Value → String → Except JsError (Option Value)
  | .null, _ => .error .typeError
  | .obj kvs, k => .ok (lookupField kvs k)
  | _, _ => .ok none

/-- JavaScript property read on a possibly-`undefined` value: reading a
property of `undefined` throws a `TypeError`. -/
def jsGetOpt : Option Value → String → Except JsError (Option Value)
  | none, _ => .error .typeError
  | some v, k => jsGet v k

/-- Split a character list on a separator character, JavaScript
`String.prototype.split` with a one-character separator: the result is
always nonempty and an input without the separator is returned whole. -/
def splitCharAux (sep : Char) : List Char → List Char → List (List Char)
  | [], acc => [acc.reverse]
  | c :: cs, acc =>
    if c = sep then acc.reverse :: splitCharAux sep cs []
    else splitCharAux sep cs (c :: acc)

/-- `s.split(sep)` for a one-character separator, on strings. -/
def splitChar (sep : Char) (s : String) : List String :=
  (splitCharAux sep s.data []).map String.mk

/-- Join strings with a separator. -/
def joinWith (sep : String) : List String → String
  | [] => ""
  | [x] => x
  | x :: t => x ++ sep ++ joinWith sep t

/-- `title.split(' ')[0]` from the source: the first space-delimited
token of the title (the whole title when it contains no space). -/
def firstSpaceToken (s : String) : String :=
  (splitChar ' ' s).headD ""

/-- The query portion of a URL string as the node legacy `url.parse`
finds it: the text after the first `?` that precedes the first `#`, or
`none` when there is no `?` there. -/
def queryPart (s : String) : Option String :=
  let preHash := (splitChar '#' s).headD s
  match splitChar '?' preHash with
  | [] => none
  | [_] => none
  | _ :: rest => some (joinWith "?" rest)

/-- Lookup of one key in a query string, modelling
`querystring.parse(q)[key]` for the claims under study: pairs are split
on `&`, each pair on its first `=` (a pair without `=` maps to the empty
string).  The first occurrence of the key is taken; percent-decoding and
the duplicate-key-to-array behaviour of node are not exercised by any
claim and are not modelled. -/
def queryLookup (q : String) (key : String) : Option String :=
  ((splitChar '&' q).filterMap (fun pair =>
    match splitChar '=' pair with
    | [] => none
    | [k] => if k = key then some "" else none
    | k :: vs => if k = key then some (joinWith "=" vs) else none)).head?

/-- `url.parse(title.split(' ')[0], true).query.code` from the source:
the `code` query parameter of the first space-delimited token of the
page title, absent when the token has no query or no `code` key. -/
def parseTitleCode (title : String) : Option String :=
  (queryPart (firstSpaceToken title)).bind (fun q => queryLookup q "code")

/-- The fixed polling ceiling of the authorization flow, the literal
`60000` milliseconds passed to `driver.wait` in the source. -/
def waitTimeoutMs : Nat := 60000

/-- The behaviour of the external browser session during the polling
phase, as an oracle: either the page title never comes to match the
redirect marker within the ceiling (the wait times out), or the wait
succeeds and the subsequent `getTitle` call reads the given title. -/
inductive SessionBehavior where
  | timedOut
  | matched (title : String)
deriving DecidableEq

/-- The observable result of one run of the authorization flow: the
outcome delivered to the caller, how many browser sessions were created
(`exports.driver` invocations), how many times the session was closed
(`driver.quit` invocations), and the final state of `step.response`. -/
structure OauthRun where
  outcome : ExecOutcome
  sessionsCreated : Nat
  quitCalls : Nat
  response : RespRec
deriving DecidableEq

/-- The OAuth authorization flow (`exports.oauthAuthorize`), embedded
over the compiled request value, the session oracle and the prior
response record.  Following the source line by line:
`var compiled = step.compiled.data` reads the `data` property;
`exports.driver(compiled.browser)` reads `compiled.browser`, which
throws a `TypeError` before any session is created when `data` was
absent or null; otherwise one session is created;
`url.parse(step.compiled.url)` throws unless `url` is a string;
inside the promise executor the driver navigates, then schedules
`driver.wait` (polling the title against the `redirect_uri` marker with
the 60000 ms ceiling), `driver.getTitle().then(...)` (which writes
`completed` and `code` onto the response) and `driver.quit().then`
(which resolves with the response).  Under the selenium promise manager
of the era these queued tasks run in order, and a failure of the wait
discards the tasks queued after it in the same frame, so on timeout
neither `getTitle` nor `quit` runs and the promise, whose executor
receives only `resolve`, never settles. -/
def oauthAuthorize (compiledReq : Value) (sess : SessionBehavior)
    (prior : RespRec) : OauthRun :=
  match jsGet compiledReq "data" with
  | .error e => ⟨.threw e, 0, 0, prior⟩
  | .ok dataV =>
    match jsGetOpt dataV "browser" with
    | .error e => ⟨.threw e, 0, 0, prior⟩
    | .ok _browser =>
      match jsGet compiledReq "url" with
      | .error e => ⟨.threw e, 1, 0, prior⟩
      | .ok urlV =>
        match urlV with
        | some (.str _) =>
          match sess with
          | .timedOut => ⟨.unsettled .timeout, 1, 0, prior⟩
          | .matched title =>
            let r := { prior with
                       completed := some true
                       code := parseTitleCode title }
            ⟨.resolved r, 1, 1, r⟩
        | _ => ⟨.threw .typeError, 1, 0, prior⟩

mutual

/-- JavaScript string coercion of a value, for the error message of the
unknown-OAuth-action branch. -/
def jsDisplayV : Value → String
  | .str s => s
  | .num n => toString n
  | .bool b => if b then "true" else "false"
  | .null => "null"
  | .arr l => jsDisplayList l
  | .obj _ => "[object Object]"

/-- JavaScript array-to-string coercion: elements joined with commas. -/
def jsDisplayList : List Value → String
  | [] => ""
  | [v] => jsDisplayV v
  | v :: t => jsDisplayV v ++ "," ++ jsDisplayList t

end

/-- JavaScript string coercion of a possibly-absent value. -/
def jsDisplay : Option Value → String
  | none => "undefined"
  | some v => jsDisplayV v

/-- The OAuth dispatcher (`exports.oauth`): switch on
`step.request.action`; `authorize` runs the authorization flow, anything
else rejects with an unknown-action error and touches nothing. -/
def oauth (requestV : Value) (compiledReq : Value) (sess : SessionBehavior)
    (prior : RespRec) : OauthRun :=
  match jsGet requestV "action" with
  | .error e => ⟨.threw e, 0, 0, prior⟩
  | .ok a =>
    match a with
    | some (.str "authorize") => oauthAuthorize compiledReq sess prior
    | other => ⟨.rejected ("Unknown OAuth action: " ++ jsDisplay other), 0, 0, prior⟩

/-- A step record as the engine sees it: the step type, the request
description, the ephemeral compiled request (absent before the first
execution) and the response record. -/
structure Step where
  type : String
  request : Value
  compiled : Option Value
  response : RespRec

/-- The external-world inputs one dispatch may consume: the transport
outcome for the HTTP runner and the session behaviour for the OAuth
runner. -/
structure StepEnv where
  httpInput : HttpInput
  sess : SessionBehavior

/-- The step dispatcher (`exports.step`): first overwrite
`step.compiled` with the compiled request, then branch on `step.type`;
`HTTP` delegates to the HTTP runner (whose resolved record is written
back onto the step), `OAUTH` delegates to the OAuth dispatcher, and any
other type rejects with the unknown-type error, leaving the response
untouched. -/
def stepRun (ctx : Ctx) (env : StepEnv) (s : Step) : Step × ExecOutcome :=
  let compiled := compile ctx s.request
  let s' : Step := { s with compiled := some compiled }
  if s.type = "HTTP" then
    match http s'.response env.httpInput with
    | .ok r => ({ s' with response := r }, .resolved r)
    | .error e => (s', .unsettled e)
  else if s.type = "OAUTH" then
    let run := oauth s.request compiled env.sess s'.response
    ({ s' with response := run.response }, run.outcome)
  else
    (s', .rejected ("Unknown request type: " ++ s.type))

/-! Helper lemmas. -/

/-- Induction principle for `Value` that threads through the nested
lists. -/
theorem value_ind {P : Value → Prop}
    (hstr : ∀ s, P (.str s)) (hnum : ∀ n, P (.num n)) (hbool : ∀ b, P (.bool b))
    (hnull : P .null)
    (harr : ∀ l, (∀ v, v ∈ l → P v) → P (.arr l))
    (hobj : ∀ kvs, (∀ kv, kv ∈ kvs → P kv.2) → P (.obj kvs)) :
    ∀ v, P v
  | .str s => hstr s
  | .num n => hnum n
  | .bool b => hbool b
  | .null => hnull
  | .arr l => harr l (fun v hv => value_ind hstr hnum hbool hnull harr hobj v)
  | .obj kvs => hobj kvs (fun kv hkv => value_ind hstr hnum hbool hnull harr hobj kv.2)
termination_by v => sizeOf v
decreasing_by
  · have := List.sizeOf_lt_of_mem hv
    simp only [Value.arr.sizeOf_spec]
    omega
  · have h1 := List.sizeOf_lt_of_mem hkv
    have h2 : sizeOf kv.2 < sizeOf kv := by
      obtain ⟨a, c⟩ := kv
      simp [Prod.mk.sizeOf_spec]
    simp only [Value.obj.sizeOf_spec]
    omega

/-- Rendering a marker-free character list is the identity, for any
fuel. -/
theorem renderAux_id (ne : Bool) (ctx : Ctx) :
    ∀ (fuel : Nat) (l : List Char), hasMarkerL l = false →
      renderAux ne ctx fuel l = l := by
  intro fuel
  induction fuel with
  | zero =>
    intro l h
    cases l with
    | nil => rfl
    | cons c cs => rfl
  | succ fuel ih =>
    intro l h
    cases l with
    | nil => rfl
    | cons c cs =>
      rw [hasMarkerL] at h
      simp only [Bool.or_eq_false_iff] at h
      obtain ⟨h1, h2⟩ := h
      simp [renderAux, h1, ih cs h2]

/-- Rendering a marker-free template string is the identity. -/
theorem hbCompile_id (ne : Bool) (s : String) (ctx : Ctx)
    (h : hasMarkerL s.data = false) : hbCompile ne s ctx = s := by
  unfold hbCompile
  rw [renderAux_id ne ctx _ _ h]

/-- Elements of a marker-free array are marker-free. -/
theorem noMarkersList_mem (l : List Value) (h : noMarkersList l = true) :
    ∀ v ∈ l, noMarkers v = true := by
  induction l with
  | nil => intro v hv; cases hv
  | cons u t ih =>
    rw [noMarkersList, Bool.and_eq_true] at h
    intro v hv
    cases hv with
    | head => exact h.1
    | tail _ hmem => exact ih h.2 v hmem

/-- Values of a marker-free object are marker-free. -/
theorem noMarkersFields_mem (kvs : List (String × Value))
    (h : noMarkersFields kvs = true) : ∀ kv ∈ kvs, noMarkers kv.2 = true := by
  induction kvs with
  | nil => intro kv hkv; cases hkv
  | cons u t ih =>
    obtain ⟨k, v⟩ := u
    rw [noMarkersFields, Bool.and_eq_true] at h
    intro kv hkv
    cases hkv with
    | head => exact h.1
    | tail _ hmem => exact ih h.2 kv hmem

/-- Compiling an array whose elements compile to themselves is the
identity. -/
theorem compileList_id (ctx : Ctx) (l : List Value)
    (hid : ∀ v ∈ l, compile ctx v = v) : compileList ctx l = l := by
  induction l with
  | nil => rw [compileList]
  | cons v t ih =>
    rw [compileList, hid v (by simp), ih (fun u hu => hid u (by simp [hu]))]

/-- Compiling an object whose values compile to themselves is the
identity. -/
theorem compileFields_id (ctx : Ctx) (kvs : List (String × Value))
    (hid : ∀ kv ∈ kvs, compile ctx kv.2 = kv.2) : compileFields ctx kvs = kvs := by
  induction kvs with
  | nil => rw [compileFields]
  | cons kv t ih =>
    obtain ⟨k, v⟩ := kv
    rw [compileFields]
    rw [hid ⟨k, v⟩ (by simp), ih (fun u hu => hid u (by simp [hu]))]

/-- Compilation of a value without template markers is the identity. -/
theorem compile_id_of_noMarkers (ctx : Ctx) :
    ∀ v, noMarkers v = true → compile ctx v = v := by
  refine value_ind ?_ ?_ ?_ ?_ ?_ ?_
  · intro s h
    rw [noMarkers, Bool.not_eq_eq_eq_not, Bool.not_true] at h
    rw [compile, hbCompile_id _ _ _ h]
  · intro n _
    rw [compile]
  · intro b _
    rw [compile]
  · intro _
    rw [compile]
  · intro l ih h
    rw [noMarkers] at h
    rw [compile, compileList_id ctx l (fun v hv => ih v hv (noMarkersList_mem l h v hv))]
  · intro kvs ih h
    rw [noMarkers] at h
    rw [compile, compileFields_id ctx kvs
      (fun kv hkv => ih kv hkv (noMarkersFields_mem kvs h kv hkv))]

/-- An array is shape-equivalent to its elementwise compilation. -/
theorem sameShapeList_compileList (ctx : Ctx) (l : List Value)
    (ih : ∀ v ∈ l, SameShape v (compile ctx v)) :
    SameShapeList l (compileList ctx l) := by
  induction l with
  | nil =>
    rw [compileList, SameShapeList]
    trivial
  | cons v t iht =>
    rw [compileList, SameShapeList]
    exact ⟨ih v (by simp), iht (fun u hu => ih u (by simp [hu]))⟩

/-- An object is shape-equivalent to its valuewise compilation. -/
theorem sameShapeFields_compileFields (ctx : Ctx) (kvs : List (String × Value))
    (ih : ∀ kv ∈ kvs, SameShape kv.2 (compile ctx kv.2)) :
    SameShapeFields kvs (compileFields ctx kvs) := by
  induction kvs with
  | nil =>
    rw [compileFields, SameShapeFields]
    trivial
  | cons kv t iht =>
    obtain ⟨k, v⟩ := kv
    rw [compileFields, SameShapeFields]
    exact ⟨rfl, ih ⟨k, v⟩ (by simp), iht (fun u hu => ih u (by simp [hu]))⟩

/-- A non-null value supports property reads without throwing. -/
theorem jsGet_ok_of_ne_null (v : Value) (k : String) (h : v ≠ Value.null) :
    ∃ o, jsGet v k = .ok o := by
  cases v with
  | null => exact absurd rfl h
  | str s => exact ⟨none, rfl⟩
  | num n => exact ⟨none, rfl⟩
  | bool b => exact ⟨none, rfl⟩
  | arr l => exact ⟨none, rfl⟩
  | obj kvs => exact ⟨lookupField kvs k, rfl⟩

/-! Claim theorems. -/

/-- C1: the claim states that a pure transport failure resolves the
promise with `completed = true`, `error = true` and `status` absent.
The code instead reads `response.statusCode` before any error check,
which throws a `TypeError` when the transport failed (no response object
exists), so no response field is written and the promise, whose executor
receives only `resolve`, never settles.  This theorem evaluates the
embedded runner at the failing input. -/
theorem spec_C1_http_transport_failure_throws :
    ∀ prior : RespRec, http prior .transportFailure = .error .typeError := by
  intro prior
  rfl

/-- C2: when a response object with a status code is received, the HTTP
runner sets `completed := true`, records the status, headers and body,
and sets `error` to `true` exactly when the status is not 200; starting
from a response record with no `error` field, a 200 status leaves
`error` absent (falsy). -/
theorem spec_C2_http_received_normalization (prior : RespRec) (s : Nat)
    (hdrs : List (String × String)) (b : String) (hfresh : prior.error = none) :
    http prior (.received s hdrs b) =
      .ok { prior with
            status := some s
            completed := some true
            error := if s ≠ 200 then some true else none
            headers := some hdrs
            body := some b } ∧
    ∀ r, http prior (.received s hdrs b) = .ok r → (r.error = some true ↔ s ≠ 200) := by
  have h1 : http prior (.received s hdrs b) =
      .ok { prior with
            status := some s
            completed := some true
            error := if s ≠ 200 then some true else none
            headers := some hdrs
            body := some b } := by
    rw [http, hfresh]
  refine ⟨h1, ?_⟩
  intro r hr
  rw [h1] at hr
  simp only [Except.ok.injEq] at hr
  subst hr
  by_cases hs : s = 200
  · simp [hs]
  · simp [hs]

/-- Witness for C2 at a fresh response record: a received 404 yields
`completed = true`, `error = true`, `status = 404`; a received 200
yields `error` absent. -/
theorem spec_C2_witness :
    RespRec.empty.error = none ∧
    http RespRec.empty (.received 404 [("h", "v")] "nf") =
      .ok { status := some 404, completed := some true, error := some true,
            headers := some [("h", "v")], body := some "nf", code := none } ∧
    http RespRec.empty (.received 200 [("h", "v")] "ok") =
      .ok { status := some 200, completed := some true, error := none,
            headers := some [("h", "v")], body := some "ok", code := none } :=
  ⟨rfl, (spec_C2_http_received_normalization RespRec.empty 404 [("h", "v")] "nf" rfl).1,
    (spec_C2_http_received_normalization RespRec.empty 200 [("h", "v")] "ok" rfl).1⟩

/-- C3: the claim states that on polling timeout the flow rejects with a
`Timeout` error and closes the session exactly once.  In the code the
promise executor receives only `resolve`, so the promise can never
reject, and the failure of the unhandled `driver.wait` discards the
queued `driver.getTitle` and `driver.quit` tasks, so the session is
never closed: the promise stays pending forever while the timeout error
surfaces as an unhandled error.  This theorem evaluates the embedded
flow at the failing input (a session whose title never matches within
the 60000 ms ceiling): the outcome is `unsettled`, not a rejection, the
quit count is 0, not 1, and the response is untouched. -/
theorem spec_C3_oauth_timeout_no_reject_no_quit :
    oauthAuthorize
        (Value.obj [("data", Value.obj [("browser", Value.str "phantomjs"),
            ("redirect_uri", Value.str "https://cb")]),
          ("url", Value.str "https://auth.example/authorize")])
        SessionBehavior.timedOut RespRec.empty =
      ⟨ExecOutcome.unsettled JsError.timeout, 1, 0, RespRec.empty⟩ ∧
    waitTimeoutMs = 60000 :=
  ⟨by decide, rfl⟩

/-- C4: `compile` preserves the container structure of its input exactly
(arrays keep length and order, objects keep their key list) and keeps
every non-string scalar leaf unchanged, as expressed by the `SameShape`
relation. -/
theorem spec_C4_compile_preserves_structure :
    ∀ (ctx : Ctx) (v : Value), SameShape v (compile ctx v) := by
  intro ctx
  refine value_ind ?_ ?_ ?_ ?_ ?_ ?_
  · intro s
    rw [compile, SameShape]
    trivial
  · intro n
    rw [compile, SameShape]
  · intro b
    rw [compile, SameShape]
  · rw [compile, SameShape]
    trivial
  · intro l ih
    rw [compile, SameShape]
    exact sameShapeList_compileList ctx l ih
  · intro kvs ih
    rw [compile, SameShape]
    exact sameShapeFields_compileFields ctx kvs ih

/-- C5: dispatching a step whose type is neither `HTTP` nor `OAUTH`
rejects with the unknown-type error and leaves the response record
unmodified (only `compiled` is overwritten). -/
theorem spec_C5_unknown_step_type (ctx : Ctx) (env : StepEnv) (s : Step)
    (h1 : s.type ≠ "HTTP") (h2 : s.type ≠ "OAUTH") :
    stepRun ctx env s =
      ({ s with compiled := some (compile ctx s.request) },
        .rejected ("Unknown request type: " ++ s.type)) ∧
    (stepRun ctx env s).1.response = s.response := by
  have h : stepRun ctx env s =
      ({ s with compiled := some (compile ctx s.request) },
        .rejected ("Unknown request type: " ++ s.type)) := by
    rw [stepRun]
    simp only [h1, h2, if_false, ite_false]
  exact ⟨h, by rw [h]⟩

/-- Witness for C5: a step of type `FTP` is rejected with the
unknown-type error and its response record is untouched. -/
theorem spec_C5_witness :
    stepRun [] ⟨HttpInput.transportFailure, SessionBehavior.timedOut⟩
        ⟨"FTP", Value.null, none, RespRec.empty⟩ =
      (⟨"FTP", Value.null, some (compile [] Value.null), RespRec.empty⟩,
        .rejected "Unknown request type: FTP") ∧
    (stepRun [] ⟨HttpInput.transportFailure, SessionBehavior.timedOut⟩
        ⟨"FTP", Value.null, none, RespRec.empty⟩).1.response = RespRec.empty := by
  have h := spec_C5_unknown_step_type []
    ⟨HttpInput.transportFailure, SessionBehavior.timedOut⟩
    ⟨"FTP", Value.null, none, RespRec.empty⟩ (by decide) (by decide)
  exact ⟨h.1, h.2⟩

/-- C6: on a successful title match the flow takes the first
space-delimited token of the title, reads its `code` query parameter
into `response.code` (absent when missing), sets
`response.completed := true`, resolves with the response and closes the
one session it created; the title
`https://cb?code=abc123 Page Title` yields `code = "abc123"`. -/
theorem spec_C6_oauth_code_extraction (compiledReq dV : Value) (prior : RespRec)
    (title u : String)
    (hdata : jsGet compiledReq "data" = .ok (some dV))
    (hnn : dV ≠ Value.null)
    (hurl : jsGet compiledReq "url" = .ok (some (.str u))) :
    oauthAuthorize compiledReq (.matched title) prior =
      ⟨.resolved { prior with completed := some true, code := parseTitleCode title },
        1, 1, { prior with completed := some true, code := parseTitleCode title }⟩ ∧
    parseTitleCode "https://cb?code=abc123 Page Title" = some "abc123" := by
  constructor
  · obtain ⟨o, ho⟩ := jsGet_ok_of_ne_null dV "browser" hnn
    simp only [oauthAuthorize, hdata, jsGetOpt, ho, hurl]
  · decide

/-- Witness for C6 at a concrete compiled request and the concrete title
of the claim. -/
theorem spec_C6_witness :
    oauthAuthorize
        (Value.obj [("data", Value.obj [("browser", Value.str "phantomjs"),
            ("redirect_uri", Value.str "https://cb")]),
          ("url", Value.str "https://auth.example/authorize")])
        (.matched "https://cb?code=abc123 Page Title") RespRec.empty =
      ⟨.resolved { RespRec.empty with completed := some true, code := some "abc123" },
        1, 1, { RespRec.empty with completed := some true, code := some "abc123" }⟩ := by
  have h := spec_C6_oauth_code_extraction
    (Value.obj [("data", Value.obj [("browser", Value.str "phantomjs"),
        ("redirect_uri", Value.str "https://cb")]),
      ("url", Value.str "https://auth.example/authorize")])
    (Value.obj [("browser", Value.str "phantomjs"),
      ("redirect_uri", Value.str "https://cb")])
    RespRec.empty "https://cb?code=abc123 Page Title" "https://auth.example/authorize"
    rfl (fun hc => Value.noConfusion hc) rfl
  rw [h.1]
  rw [show parseTitleCode "https://cb?code=abc123 Page Title" = some "abc123" from rfl]

/-- C7: every string leaf is evaluated as a handlebars template against
the context with escaping disabled; the concrete example of the claim
holds, and the last two conjuncts show the `noEscape` flag is what makes
the substitution verbatim rather than HTML-escaped. -/
theorem spec_C7_template_substitution_noescape :
    (∀ (ctx : Ctx) (s : String), compile ctx (.str s) = .str (hbCompile true s ctx)) ∧
    compile [("name", "Ada")]
        (.obj [("greeting", .str "Hello \x7b\x7bname\x7d\x7d")]) =
      .obj [("greeting", .str "Hello Ada")] ∧
    hbCompile true "\x7b\x7bx\x7d\x7d" [("x", "<b>")] = "<b>" ∧
    hbCompile false "\x7b\x7bx\x7d\x7d" [("x", "<b>")] = "&lt;b&gt;" := by
  refine ⟨?_, ?_, by decide, by decide⟩
  · intro ctx s
    rw [compile]
  · simp only [compile, compileFields]
    rfl

/-- C8: a value containing no remaining template markers compiles to
itself, so compilation is idempotent on its own marker-free output. -/
theorem spec_C8_compile_idempotent (ctx : Ctx) (v : Value)
    (h : noMarkers v = true) :
    compile ctx v = v ∧ compile ctx (compile ctx v) = compile ctx v := by
  have h1 := compile_id_of_noMarkers ctx v h
  exact ⟨h1, by conv_lhs => rw [h1]⟩

/-- Witness for C8 at a concrete marker-free value. -/
theorem spec_C8_witness :
    noMarkers (Value.obj [("a", Value.str "plain"), ("n", Value.num 3)]) = true ∧
    compile [("name", "Ada")]
        (Value.obj [("a", Value.str "plain"), ("n", Value.num 3)]) =
      Value.obj [("a", Value.str "plain"), ("n", Value.num 3)] := by
  have h : noMarkers (Value.obj [("a", Value.str "plain"), ("n", Value.num 3)]) = true := by
    simp only [noMarkers, noMarkersFields]
    decide
  exact ⟨h, (spec_C8_compile_idempotent [("name", "Ada")] _ h).1⟩

/-- C9: the HTTP runner only ever assigns `true` to `error` (it never
writes `false` and never deletes the field), so a response record that
carries `error = true` from an earlier attempt still carries
`error = true` after a subsequent execution that receives a 200
status. -/
theorem spec_C9_http_error_monotone :
    (∀ (prior : RespRec) (inp : HttpInput) (r : RespRec),
      http prior inp = .ok r → r.error = some true ∨ r.error = prior.error) ∧
    (∀ (prior : RespRec) (hdrs : List (String × String)) (b : String),
      prior.error = some true →
      http prior (.received 200 hdrs b) =
        .ok { prior with
              status := some 200
              completed := some true
              error := some true
              headers := some hdrs
              body := some b }) := by
  constructor
  · intro prior inp r hr
    cases inp with
    | transportFailure => simp [http] at hr
    | received s h b =>
      rw [http] at hr
      simp only [Except.ok.injEq] at hr
      subst hr
      by_cases hs : s = 200
      · right
        simp [hs]
      · left
        simp [hs]
  · intro prior hdrs b herr
    rw [http]
    simp [herr]

/-- Witness for C9: a record already carrying `error = true` keeps it
after receiving a 200. -/
theorem spec_C9_witness :
    http { RespRec.empty with error := some true } (.received 200 [] "ok") =
      .ok { status := some 200, completed := some true, error := some true,
            headers := some [], body := some "ok", code := none } ∧
    (∀ r, http RespRec.empty (.received 404 [] "nf") = .ok r →
      r.error = some true ∨ r.error = RespRec.empty.error) :=
  ⟨spec_C9_http_error_monotone.2 { RespRec.empty with error := some true } [] "ok" rfl,
    fun r hr => spec_C9_http_error_monotone.1 RespRec.empty (.received 404 [] "nf") r hr⟩

/-- C10: the authorization flow reads the browser identifier from
`step.compiled.data`; when the compiled request has no `data` field the
read of `compiled.browser` throws a `TypeError` before any browser
session is created and before any response field is written. -/
theorem spec_C10_oauth_requires_data (compiledReq : Value)
    (sess : SessionBehavior) (prior : RespRec)
    (h : jsGet compiledReq "data" = .ok none) :
    oauthAuthorize compiledReq sess prior =
      ⟨.threw .typeError, 0, 0, prior⟩ := by
  simp only [oauthAuthorize, h, jsGetOpt]

/-- Witness for C10: a compiled request carrying `browser`,
`redirect_uri` and `url` at top level but no `data` object still throws
before a session exists. -/
theorem spec_C10_witness :
    jsGet (Value.obj [("browser", Value.str "chrome"),
        ("redirect_uri", Value.str "https://cb"),
        ("url", Value.str "https://auth.example/authorize")]) "data" = .ok none ∧
    oauthAuthorize
        (Value.obj [("browser", Value.str "chrome"),
          ("redirect_uri", Value.str "https://cb"),
          ("url", Value.str "https://auth.example/authorize")])
        SessionBehavior.timedOut RespRec.empty =
      ⟨.threw .typeError, 0, 0, RespRec.empty⟩ :=
  ⟨rfl, spec_C10_oauth_requires_data _ SessionBehavior.timedOut RespRec.empty rfl⟩

end Kapit
